import Mathlib

/-!
Verification development for the GitLab CI/CD variables auditor
(`gitlab.py`).  The script is embedded shallowly: the HTTP backend is an
oracle (page number to page response, project id to variables response),
machine state is passed explicitly, and the stdlib collaborators
(`sorted`, `json.dump` / `json.load`) are modelled by their documented
semantics.
-/

namespace GitLabAudit

/-- A project object as consumed by the auditor: the fields of the
`simple=true` project listing that `audit_secrets` reads
(`id`, `name`, `path_with_namespace`, `web_url`). -/
structure Project where
  id : Nat
  name : String
  path_with_namespace : String
  web_url : String
  deriving DecidableEq, Repr

/-- The query parameters sent by one iteration of the
`get_all_projects` loop (`gitlab.py` lines 32-37): `membership=true`,
`per_page=100`, `page=N`, `simple=true`. -/
structure PageRequest where
  membership : String
  per_page : Nat
  page : Nat
  simple : String
  deriving DecidableEq, Repr

/-- The request issued for a given page number: fixed `membership` and
`simple` flags, fixed page size 100. -/
def pageRequest (page : Nat) : PageRequest :=
  { membership := "true", per_page := 100, page := page, simple := "true" }

/-- Outcome of one `requests.get` on the project-listing endpoint.
`err` covers every `requests.exceptions.RequestException` (network
failure, or a non-2xx status raised by `raise_for_status`); `ok` carries
the decoded JSON array and the `x-next-page` response header (`none` =
header absent, `some ""` = header present but empty). -/
inductive PageResult where
  | err : PageResult
  | ok (projects : List Project) (xNextPage : Option String) : PageResult

/-- The pagination loop of `get_all_projects` (lines 30-58), with the
unbounded `while True` given an explicit fuel bound.  Returns the
accumulated projects together with the list of requests issued.
Mirrors the source exactly: on a transport error, break (keeping `acc`);
on an empty page, break before extending; otherwise extend, then break
if the `x-next-page` header is absent or empty, else advance the page
counter. -/
def get_all_projects_aux (backend : Nat → PageResult) :
    Nat → Nat → List Project → List Project × List PageRequest
  | 0, _, acc => (acc, [])
  | fuel + 1, page, acc =>
    match backend page with
    | .err => (acc, [pageRequest page])
    | .ok page_projects next =>
      if page_projects = [] then
        (acc, [pageRequest page])
      else
        match next with
        | none => (acc ++ page_projects, [pageRequest page])
        | some s =>
          if s = "" then
            (acc ++ page_projects, [pageRequest page])
          else
            let r := get_all_projects_aux backend fuel (page + 1) (acc ++ page_projects)
            (r.1, pageRequest page :: r.2)

/-- `get_all_projects` (lines 22-61): start at page 1 with an empty
accumulator. -/
def get_all_projects (backend : Nat → PageResult) (fuel : Nat) :
    List Project × List PageRequest :=
  get_all_projects_aux backend fuel 1 []

/-- A variable object as returned by the variables endpoint.  The five
fields the auditor projects are individually optional; `value` and
`extra` stand for the secret value and any further fields of the API
object, which the projection must ignore. -/
structure ApiVariable where
  key : Option String
  «protected» : Option Bool
  masked : Option Bool
  environment_scope : Option String
  variable_type : Option String
  value : Option String
  extra : List (String × String)
  deriving DecidableEq, Repr

/-- The record built from an API variable at lines 110-116: exactly the
five projected fields.  `key` is an `Option` because `var.get('key')`
has no default (Python `None`). -/
structure StoredVariable where
  key : Option String
  «protected» : Bool
  masked : Bool
  environment_scope : String
  variable_type : String
  deriving DecidableEq, Repr

/-- The projection performed at lines 110-116: `var.get('key')` (no
default), `var.get('protected', False)`, `var.get('masked', False)`,
`var.get('environment_scope', '*')`, `var.get('variable_type',
'env_var')`.  Every other field of the API object, the secret `value`
included, is dropped. -/
def projectVariable (v : ApiVariable) : StoredVariable :=
  { key := v.key
    «protected» := v.«protected».getD false
    masked := v.masked.getD false
    environment_scope := v.environment_scope.getD "*"
    variable_type := v.variable_type.getD "env_var" }

/-- Outcome of the `requests.get` on the variables endpoint for one
project id.  `err` covers every `requests.exceptions.RequestException`:
network error, and any non-2xx status raised by `raise_for_status`
(permission denials included). -/
inductive VarsResult where
  | err : VarsResult
  | ok (vs : List ApiVariable) : VarsResult

/-- The world a run interacts with: the page oracle with its fuel bound,
the per-project variables oracle, and the clock value used for
`datetime.now().isoformat()`. -/
structure Env where
  pages : Nat → PageResult
  fuel : Nat
  vars : Nat → VarsResult
  now : String

/-- `get_project_variables` (lines 63-72): return the decoded response
on success and `[]` on any `RequestException`. -/
def get_project_variables (env : Env) (project_id : Nat) : List ApiVariable :=
  match env.vars project_id with
  | .err => []
  | .ok vs => vs

/-- One `project_data` dict (lines 101-116): project identity plus the
projected variables. -/
structure ProjectData where
  id : Nat
  name : String
  path : String
  web_url : String
  «variables» : List StoredVariable
  deriving DecidableEq, Repr

/-- The `project_data` value appended for a project whose fetch
returned `vs`. -/
def projectEntry (p : Project) (vs : List ApiVariable) : ProjectData :=
  { id := p.id
    name := p.name
    path := p.path_with_namespace
    web_url := p.web_url
    «variables» := vs.map projectVariable }

/-- The `results` dict of `audit_secrets` (lines 78-84). -/
structure AuditReport where
  audit_date : String
  total_projects : Nat
  projects_with_secrets : Nat
  total_secrets : Nat
  projects : List ProjectData
  deriving DecidableEq, Repr

/-- One iteration of the `for idx, project in enumerate(projects)` loop
(lines 88-120): fetch the variables; on a non-empty result bump both
counters and append a `project_data` entry, otherwise leave `results`
unchanged. -/
def auditStep (env : Env) (results : AuditReport) (project : Project) : AuditReport :=
  let fetched := get_project_variables env project.id
  if fetched = [] then results
  else
    { results with
      projects_with_secrets := results.projects_with_secrets + 1
      total_secrets := results.total_secrets + fetched.length
      projects := results.projects ++ [projectEntry project fetched] }

/-- The aggregation of `audit_secrets` over an already-enumerated
project list: initialise the `results` dict (lines 78-84), then fold
the per-project loop over the list. -/
def audit_core (env : Env) (projects : List Project) : AuditReport :=
  projects.foldl (auditStep env)
    { audit_date := env.now
      total_projects := projects.length
      projects_with_secrets := 0
      total_secrets := 0
      projects := [] }

/-- `audit_secrets` (lines 74-122): enumerate, then aggregate. -/
def audit_secrets (env : Env) : AuditReport :=
  audit_core env (get_all_projects env.pages env.fuel).1

/-- A JSON value, the shape `json.dump` writes and `json.load` reads
back.  The text layer (indentation, escaping) is the Python standard
library's and round-trips JSON values exactly, so serialization is
modelled at the value level. -/
inductive Json where
  | null : Json
  | bool (b : Bool) : Json
  | num (n : Nat) : Json
  | str (s : String) : Json
  | arr (elems : List Json) : Json
  | obj (fields : List (String × Json)) : Json

/-- The JSON object written for one stored variable: the five fields in
dict insertion order; a `None` key serializes as JSON `null`. -/
def storedVariableJson (v : StoredVariable) : Json :=
  .obj [("key", match v.key with | none => .null | some s => .str s),
        ("protected", .bool v.«protected»),
        ("masked", .bool v.masked),
        ("environment_scope", .str v.environment_scope),
        ("variable_type", .str v.variable_type)]

/-- The JSON object written for one `project_data` entry. -/
def projectDataJson (p : ProjectData) : Json :=
  .obj [("id", .num p.id),
        ("name", .str p.name),
        ("path", .str p.path),
        ("web_url", .str p.web_url),
        ("variables", .arr (p.«variables».map storedVariableJson))]

/-- The JSON value `save_results` (lines 124-128) passes to
`json.dump`: the `results` dict in insertion order. -/
def save_results (r : AuditReport) : Json :=
  .obj [("audit_date", .str r.audit_date),
        ("total_projects", .num r.total_projects),
        ("projects_with_secrets", .num r.projects_with_secrets),
        ("total_secrets", .num r.total_secrets),
        ("projects", .arr (r.projects.map projectDataJson))]

/-- Read a serialized variable key back: `null` was a `None` key. -/
def readOptString : Json → Option (Option String)
  | .null => some none
  | .str s => some (some s)
  | _ => none

/-- Interpret a deserialized JSON value as a stored variable. -/
def readStoredVariable : Json → Option StoredVariable
  | .obj [("key", k), ("protected", .bool p), ("masked", .bool m),
          ("environment_scope", .str es), ("variable_type", .str vt)] => do
      let k' ← readOptString k
      some { key := k', «protected» := p, masked := m,
             environment_scope := es, variable_type := vt }
  | _ => none

/-- Interpret a deserialized JSON array as a stored-variable list. -/
def readStoredVariableList : List Json → Option (List StoredVariable)
  | [] => some []
  | j :: js => do
      let v ← readStoredVariable j
      let vs ← readStoredVariableList js
      some (v :: vs)

/-- Interpret a deserialized JSON value as a `project_data` entry. -/
def readProjectData : Json → Option ProjectData
  | .obj [("id", .num i), ("name", .str n), ("path", .str pa),
          ("web_url", .str w), ("variables", .arr vs)] => do
      let vs' ← readStoredVariableList vs
      some { id := i, name := n, path := pa, web_url := w, «variables» := vs' }
  | _ => none

/-- Interpret a deserialized JSON array as a `project_data` list. -/
def readProjectDataList : List Json → Option (List ProjectData)
  | [] => some []
  | j :: js => do
      let p ← readProjectData j
      let ps ← readProjectDataList js
      some (p :: ps)

/-- Interpret the JSON value `json.load` reads back from the saved file
as an `AuditReport`. -/
def load_results : Json → Option AuditReport
  | .obj [("audit_date", .str d), ("total_projects", .num tp),
          ("projects_with_secrets", .num pws), ("total_secrets", .num ts),
          ("projects", .arr ps)] => do
      let ps' ← readProjectDataList ps
      some { audit_date := d, total_projects := tp,
             projects_with_secrets := pws, total_secrets := ts,
             projects := ps' }
  | _ => none

/-- The sort key of line 159, `lambda x: x['key']`, in the case the key
is a string (`getD` only pads the `None` case, which `sortedByKey`
rejects separately). -/
def keyStr (v : StoredVariable) : String :=
  v.key.getD ""

/-- The comparison underlying the ascending variable sort: string
comparison of the keys. -/
def varKeyLe (a b : StoredVariable) : Bool :=
  decide (keyStr a ≤ keyStr b)

/-- CPython semantics of `sorted(project['variables'], key=lambda x:
x['key'])` at line 159: a stable ascending comparison sort of the
extracted keys.  Comparing `None` with a string or with `None` raises
`TypeError`, and in a comparison sort of two or more elements every
element takes part in at least one comparison, so the call raises
exactly when the list has at least two elements and contains a `None`
key; a list of at most one element is returned unchanged without any
comparison.  A raised `TypeError` is `.error ()`. -/
def sortedByKey (l : List StoredVariable) : Except Unit (List StoredVariable) :=
  if l.length ≤ 1 then .ok l
  else if ∀ v ∈ l, v.key.isSome then .ok (l.mergeSort varKeyLe)
  else .error ()

/-- The comparison underlying `sorted(results['projects'], key=lambda
x: len(x['variables']), reverse=True)` (lines 146-150): descending by
variable count. -/
def projCountGe (a b : ProjectData) : Bool :=
  decide (b.«variables».length ≤ a.«variables».length)

/-- The `sorted_projects` list of lines 146-150: CPython `sorted` with
`reverse=True` is a stable descending sort (equal keys keep their
original relative order), here with total integer keys, i.e. the stable
sort by the flipped count comparison. -/
def sorted_projects (r : AuditReport) : List ProjectData :=
  r.projects.mergeSort projCountGe

/-- The sublist of enumerated projects whose variable fetch came back
non-empty: exactly those the loop of lines 88-120 reports. -/
def withSecrets (env : Env) (l : List Project) : List Project :=
  l.filter fun q => !(get_project_variables env q.id).isEmpty

theorem foldl_auditStep (env : Env) :
    ∀ (l : List Project) (r : AuditReport),
      (l.foldl (auditStep env) r).audit_date = r.audit_date ∧
      (l.foldl (auditStep env) r).total_projects = r.total_projects ∧
      (l.foldl (auditStep env) r).projects_with_secrets
        = r.projects_with_secrets + (withSecrets env l).length ∧
      (l.foldl (auditStep env) r).total_secrets
        = r.total_secrets
          + ((withSecrets env l).map fun q => (get_project_variables env q.id).length).sum ∧
      (l.foldl (auditStep env) r).projects
        = r.projects
          ++ (withSecrets env l).map fun q => projectEntry q (get_project_variables env q.id)
  | [], r => by simp [withSecrets]
  | p :: l, r => by
    by_cases hp : get_project_variables env p.id = []
    · have hstep : auditStep env r p = r := by simp [auditStep, hp]
      have hfil : withSecrets env (p :: l) = withSecrets env l := by
        simp [withSecrets, List.filter_cons, hp]
      obtain ⟨h1, h2, h3, h4, h5⟩ := foldl_auditStep env l r
      rw [List.foldl_cons, hstep, hfil]
      exact ⟨h1, h2, h3, h4, h5⟩
    · have hfil : withSecrets env (p :: l) = p :: withSecrets env l := by
        simp [withSecrets, List.filter_cons, List.isEmpty_iff, hp]
      obtain ⟨h1, h2, h3, h4, h5⟩ := foldl_auditStep env l (auditStep env r p)
      have hstep₁ : (auditStep env r p).audit_date = r.audit_date := by
        simp [auditStep, hp]
      have hstep₂ : (auditStep env r p).total_projects = r.total_projects := by
        simp [auditStep, hp]
      have hstep₃ : (auditStep env r p).projects_with_secrets
          = r.projects_with_secrets + 1 := by
        simp [auditStep, hp]
      have hstep₄ : (auditStep env r p).total_secrets
          = r.total_secrets + (get_project_variables env p.id).length := by
        simp [auditStep, hp]
      have hstep₅ : (auditStep env r p).projects
          = r.projects ++ [projectEntry p (get_project_variables env p.id)] := by
        simp [auditStep, hp]
      rw [List.foldl_cons, hfil]
      refine ⟨by rw [h1, hstep₁], by rw [h2, hstep₂], ?_, ?_, ?_⟩
      · rw [h3, hstep₃]; simp; omega
      · rw [h4, hstep₄]; simp; omega
      · rw [h5, hstep₅]; simp

/-- Closed form of the aggregation: the report fields of
`audit_core env l` in terms of the enumeration `l` and the
variables oracle. -/
theorem audit_core_spec (env : Env) (l : List Project) :
    (audit_core env l).audit_date = env.now ∧
    (audit_core env l).total_projects = l.length ∧
    (audit_core env l).projects_with_secrets = (withSecrets env l).length ∧
    (audit_core env l).total_secrets
      = ((withSecrets env l).map fun q => (get_project_variables env q.id).length).sum ∧
    (audit_core env l).projects
      = (withSecrets env l).map fun q => projectEntry q (get_project_variables env q.id) := by
  obtain ⟨h1, h2, h3, h4, h5⟩ := foldl_auditStep env l
    { audit_date := env.now, total_projects := l.length,
      projects_with_secrets := 0, total_secrets := 0, projects := [] }
  exact ⟨h1, h2, by simpa using h3, by simpa using h4, by simpa using h5⟩

/-- C1: every `AuditReport` returned by `audit_secrets` satisfies
`total_secrets = sum of the variable counts of its project entries`,
`projects_with_secrets = number of project entries`, and
`projects_with_secrets ≤ total_projects`. -/
theorem audit_report_counts_invariant (env : Env) :
    (audit_secrets env).total_secrets
      = ((audit_secrets env).projects.map fun p => p.«variables».length).sum ∧
    (audit_secrets env).projects_with_secrets = (audit_secrets env).projects.length ∧
    (audit_secrets env).projects_with_secrets ≤ (audit_secrets env).total_projects := by
  obtain ⟨-, h2, h3, h4, h5⟩ :=
    audit_core_spec env (get_all_projects env.pages env.fuel).1
  unfold audit_secrets
  refine ⟨?_, ?_, ?_⟩
  · rw [h4, h5, List.map_map]
    congr 1
    apply List.map_congr_left
    intro q _
    simp [projectEntry]
  · rw [h3, h5, List.length_map]
  · rw [h3, h2]
    exact (List.length_filter_le _ _)

/-- C2: a project `X` of the enumeration whose variable fetch comes
back empty (the transport-failure case included, since
`get_project_variables` maps it to `[]`) appears in no report entry, is
still counted by `total_projects`, and increments neither
`projects_with_secrets` nor `total_secrets`: those fields equal the
ones of the aggregation run without `X`. -/
theorem empty_fetch_project_excluded (env : Env) (X : Project)
    (l1 l2 : List Project)
    (hvars : get_project_variables env X.id = [])
    (henum : (get_all_projects env.pages env.fuel).1 = l1 ++ X :: l2) :
    (∀ e ∈ (audit_secrets env).projects, e.id ≠ X.id) ∧
    (audit_secrets env).total_projects = l1.length + l2.length + 1 ∧
    (audit_secrets env).projects_with_secrets
      = (audit_core env (l1 ++ l2)).projects_with_secrets ∧
    (audit_secrets env).total_secrets = (audit_core env (l1 ++ l2)).total_secrets ∧
    (audit_secrets env).projects = (audit_core env (l1 ++ l2)).projects := by
  have hW : withSecrets env (l1 ++ X :: l2)
      = withSecrets env l1 ++ withSecrets env l2 := by
    simp [withSecrets, List.filter_append, List.filter_cons, hvars]
  have hW2 : withSecrets env (l1 ++ l2)
      = withSecrets env l1 ++ withSecrets env l2 := by
    simp [withSecrets, List.filter_append]
  obtain ⟨-, hb, hc, hd, he⟩ := audit_core_spec env (l1 ++ X :: l2)
  obtain ⟨-, -, hc', hd', he'⟩ := audit_core_spec env (l1 ++ l2)
  unfold audit_secrets
  rw [henum]
  refine ⟨?_, ?_, ?_, ?_, ?_⟩
  · intro e he_mem
    rw [he] at he_mem
    obtain ⟨q, hq_mem, rfl⟩ := List.mem_map.1 he_mem
    simp only [withSecrets, List.mem_filter] at hq_mem
    have hq := hq_mem.2
    simp only [projectEntry]
    intro hid
    rw [hid, hvars] at hq
    simp at hq
  · rw [hb]; simp [List.length_append]; omega
  · rw [hc, hc', hW, hW2]
  · rw [hd, hd', hW, hW2]
  · rw [he, he', hW, hW2]

/-- Witness for C2 at a concrete world: page 1 lists projects 1 and 2,
project 1 has one variable, the fetch for project 2 fails. -/
theorem empty_fetch_project_excluded_witness :
    (∀ e ∈ (audit_secrets
        { pages := fun p => if p = 1 then
            .ok [⟨1, "a", "g/a", "u1"⟩, ⟨2, "b", "g/b", "u2"⟩] none else .err,
          fuel := 5,
          vars := fun i => if i = 1 then
            .ok [⟨some "K", none, none, none, none, some "S", []⟩] else .err,
          now := "t" }).projects, e.id ≠ (⟨2, "b", "g/b", "u2"⟩ : Project).id) ∧
    (audit_secrets
        { pages := fun p => if p = 1 then
            .ok [⟨1, "a", "g/a", "u1"⟩, ⟨2, "b", "g/b", "u2"⟩] none else .err,
          fuel := 5,
          vars := fun i => if i = 1 then
            .ok [⟨some "K", none, none, none, none, some "S", []⟩] else .err,
          now := "t" }).total_projects
      = [(⟨1, "a", "g/a", "u1"⟩ : Project)].length + ([] : List Project).length + 1 ∧
    (audit_secrets
        { pages := fun p => if p = 1 then
            .ok [⟨1, "a", "g/a", "u1"⟩, ⟨2, "b", "g/b", "u2"⟩] none else .err,
          fuel := 5,
          vars := fun i => if i = 1 then
            .ok [⟨some "K", none, none, none, none, some "S", []⟩] else .err,
          now := "t" }).projects_with_secrets
      = (audit_core
          { pages := fun p => if p = 1 then
              .ok [⟨1, "a", "g/a", "u1"⟩, ⟨2, "b", "g/b", "u2"⟩] none else .err,
            fuel := 5,
            vars := fun i => if i = 1 then
              .ok [⟨some "K", none, none, none, none, some "S", []⟩] else .err,
            now := "t" }
          ([⟨1, "a", "g/a", "u1"⟩] ++ [])).projects_with_secrets ∧
    (audit_secrets
        { pages := fun p => if p = 1 then
            .ok [⟨1, "a", "g/a", "u1"⟩, ⟨2, "b", "g/b", "u2"⟩] none else .err,
          fuel := 5,
          vars := fun i => if i = 1 then
            .ok [⟨some "K", none, none, none, none, some "S", []⟩] else .err,
          now := "t" }).total_secrets
      = (audit_core
          { pages := fun p => if p = 1 then
              .ok [⟨1, "a", "g/a", "u1"⟩, ⟨2, "b", "g/b", "u2"⟩] none else .err,
            fuel := 5,
            vars := fun i => if i = 1 then
              .ok [⟨some "K", none, none, none, none, some "S", []⟩] else .err,
            now := "t" }
          ([⟨1, "a", "g/a", "u1"⟩] ++ [])).total_secrets ∧
    (audit_secrets
        { pages := fun p => if p = 1 then
            .ok [⟨1, "a", "g/a", "u1"⟩, ⟨2, "b", "g/b", "u2"⟩] none else .err,
          fuel := 5,
          vars := fun i => if i = 1 then
            .ok [⟨some "K", none, none, none, none, some "S", []⟩] else .err,
          now := "t" }).projects
      = (audit_core
          { pages := fun p => if p = 1 then
              .ok [⟨1, "a", "g/a", "u1"⟩, ⟨2, "b", "g/b", "u2"⟩] none else .err,
            fuel := 5,
            vars := fun i => if i = 1 then
              .ok [⟨some "K", none, none, none, none, some "S", []⟩] else .err,
            now := "t" }
          ([⟨1, "a", "g/a", "u1"⟩] ++ [])).projects :=
  empty_fetch_project_excluded _ ⟨2, "b", "g/b", "u2"⟩ [⟨1, "a", "g/a", "u1"⟩] []
    rfl rfl

/-- C5: `get_project_variables` absorbs every transport-level failure
(network error, non-2xx status, permission denial, all of which surface
as the caught `RequestException`) into the empty list, and otherwise
returns the decoded response; no error escapes to the caller. -/
theorem variables_fetch_error_empty (env : Env) (project_id : Nat) :
    (env.vars project_id = .err → get_project_variables env project_id = []) ∧
    (∀ vs, env.vars project_id = .ok vs → get_project_variables env project_id = vs) := by
  constructor
  · intro h; simp [get_project_variables, h]
  · intro vs h; simp [get_project_variables, h]

/-- Witness for C5: a failing fetch yields `[]`, a succeeding fetch
yields the response. -/
theorem variables_fetch_error_empty_witness :
    get_project_variables
      { pages := fun _ => .err, fuel := 0, vars := fun _ => .err, now := "t" } 7 = [] ∧
    get_project_variables
      { pages := fun _ => .err, fuel := 0,
        vars := fun _ => .ok [⟨some "K", none, none, none, none, none, []⟩],
        now := "t" } 7
      = [⟨some "K", none, none, none, none, none, []⟩] :=
  ⟨(variables_fetch_error_empty
      { pages := fun _ => .err, fuel := 0, vars := fun _ => .err, now := "t" } 7).1 rfl,
   (variables_fetch_error_empty
      { pages := fun _ => .err, fuel := 0,
        vars := fun _ => .ok [⟨some "K", none, none, none, none, none, []⟩],
        now := "t" } 7).2 _ rfl⟩

theorem get_all_projects_aux_requests (backend : Nat → PageResult) :
    ∀ (fuel page : Nat) (acc : List Project),
      ∃ n, (get_all_projects_aux backend fuel page acc).2
        = (List.range n).map fun i => pageRequest (page + i)
  | 0, page, acc => ⟨0, by simp [get_all_projects_aux]⟩
  | fuel + 1, page, acc => by
    rcases hb : backend page with - | ⟨ps, next⟩
    · exact ⟨1, by simp [get_all_projects_aux, hb, List.range_succ]⟩
    · by_cases hps : ps = []
      · exact ⟨1, by simp [get_all_projects_aux, hb, hps, List.range_succ]⟩
      · rcases next with - | s
        · exact ⟨1, by simp [get_all_projects_aux, hb, hps, List.range_succ]⟩
        · by_cases hs : s = ""
          · exact ⟨1, by simp [get_all_projects_aux, hb, hps, hs, List.range_succ]⟩
          · obtain ⟨n, hn⟩ :=
              get_all_projects_aux_requests backend fuel (page + 1) (acc ++ ps)
            refine ⟨n + 1, ?_⟩
            simp only [get_all_projects_aux, hb, hps, hs, if_neg, ite_false]
            rw [List.range_succ_eq_map]
            simp only [List.map_cons, List.map_map, Nat.add_zero, hn]
            congr 1
            apply List.map_congr_left
            intro i _
            simp only [Function.comp]
            congr 1
            omega

/-- C3: the enumeration starts at page 1 with page size 100 and issues
consecutive page numbers; from any loop state it continues exactly when
the page is non-empty and the `x-next-page` header is present and
non-empty, and stops on the first response without that signal or with
zero items; on the two-page scenario (page 1: two projects with a
next-page signal, page 2: empty) it returns the two projects after
exactly two HTTP requests. -/
theorem pagination_loop_behaviour :
    (∀ (backend : Nat → PageResult) (fuel : Nat), ∃ n,
      (get_all_projects backend fuel).2
        = (List.range n).map fun i => pageRequest (1 + i)) ∧
    (∀ page, (pageRequest page).per_page = 100 ∧ (pageRequest page).page = page) ∧
    (∀ (backend : Nat → PageResult) (fuel page : Nat) (acc ps : List Project) (s : String),
      backend page = .ok ps (some s) → ps ≠ [] → s ≠ "" →
      get_all_projects_aux backend (fuel + 1) page acc
        = ((get_all_projects_aux backend fuel (page + 1) (acc ++ ps)).1,
            pageRequest page :: (get_all_projects_aux backend fuel (page + 1) (acc ++ ps)).2)) ∧
    (∀ (backend : Nat → PageResult) (fuel page : Nat) (acc ps : List Project)
        (next : Option String),
      backend page = .ok ps next →
      (ps = [] ∨ next = none ∨ next = some "") →
      get_all_projects_aux backend (fuel + 1) page acc
        = (if ps = [] then acc else acc ++ ps, [pageRequest page])) ∧
    get_all_projects
      (fun p => if p = 1 then
        .ok [⟨1, "a", "g/a", "u1"⟩, ⟨2, "b", "g/b", "u2"⟩] (some "2")
        else .ok [] none) 10
      = ([⟨1, "a", "g/a", "u1"⟩, ⟨2, "b", "g/b", "u2"⟩],
         [pageRequest 1, pageRequest 2]) := by
  refine ⟨?_, ?_, ?_, ?_, ?_⟩
  · intro backend fuel
    exact get_all_projects_aux_requests backend fuel 1 []
  · intro page
    exact ⟨rfl, rfl⟩
  · intro backend fuel page acc ps s hb hps hs
    simp [get_all_projects_aux, hb, hps, hs]
  · intro backend fuel page acc ps next hb hstop
    rcases hstop with hps | hnext | hempty
    · simp [get_all_projects_aux, hb, hps]
    · subst hnext
      by_cases hps : ps = []
      · simp [get_all_projects_aux, hb, hps]
      · simp [get_all_projects_aux, hb, hps]
    · subst hempty
      by_cases hps : ps = []
      · simp [get_all_projects_aux, hb, hps]
      · simp [get_all_projects_aux, hb, hps]
  · rfl

/-- Witness for C3: the continue step and the stop step of the loop at
a concrete backend, obtained from the theorem. -/
theorem pagination_loop_behaviour_witness :
    get_all_projects_aux
        (fun p => if p = 1 then
          .ok [⟨1, "a", "g/a", "u1"⟩, ⟨2, "b", "g/b", "u2"⟩] (some "2")
          else .ok [] none) 2 1 []
      = ((get_all_projects_aux
            (fun p => if p = 1 then
              .ok [⟨1, "a", "g/a", "u1"⟩, ⟨2, "b", "g/b", "u2"⟩] (some "2")
              else .ok [] none) 1 2
            ([] ++ [⟨1, "a", "g/a", "u1"⟩, ⟨2, "b", "g/b", "u2"⟩])).1,
         pageRequest 1 :: (get_all_projects_aux
            (fun p => if p = 1 then
              .ok [⟨1, "a", "g/a", "u1"⟩, ⟨2, "b", "g/b", "u2"⟩] (some "2")
              else .ok [] none) 1 2
            ([] ++ [⟨1, "a", "g/a", "u1"⟩, ⟨2, "b", "g/b", "u2"⟩])).2) ∧
    get_all_projects_aux
        (fun p => if p = 1 then
          .ok [⟨1, "a", "g/a", "u1"⟩, ⟨2, "b", "g/b", "u2"⟩] (some "2")
          else .ok [] none) 1 2 [⟨1, "a", "g/a", "u1"⟩, ⟨2, "b", "g/b", "u2"⟩]
      = (if ([] : List Project) = [] then
          [⟨1, "a", "g/a", "u1"⟩, ⟨2, "b", "g/b", "u2"⟩]
          else [⟨1, "a", "g/a", "u1"⟩, ⟨2, "b", "g/b", "u2"⟩] ++ [], [pageRequest 2]) :=
  ⟨pagination_loop_behaviour.2.2.1 _ 1 1 [] [⟨1, "a", "g/a", "u1"⟩, ⟨2, "b", "g/b", "u2"⟩]
      "2" rfl (by decide) (by decide),
   pagination_loop_behaviour.2.2.2.1 _ 0 2 [⟨1, "a", "g/a", "u1"⟩, ⟨2, "b", "g/b", "u2"⟩]
      [] none rfl (Or.inl rfl)⟩

theorem get_all_projects_aux_err (backend : Nat → PageResult)
    (ps : Nat → List Project) (nx : Nat → String) :
    ∀ (j fuel page : Nat) (acc : List Project),
      (∀ i, i < j → backend (page + i) = .ok (ps (page + i)) (some (nx (page + i)))
          ∧ ps (page + i) ≠ [] ∧ nx (page + i) ≠ "") →
      backend (page + j) = .err →
      j + 1 ≤ fuel →
      get_all_projects_aux backend fuel page acc
        = (acc ++ ((List.range j).map fun i => ps (page + i)).flatten,
           (List.range (j + 1)).map fun i => pageRequest (page + i))
  | 0, fuel, page, acc => by
    intro _ herr hfuel
    obtain ⟨f, rfl⟩ : ∃ f, fuel = f + 1 := ⟨fuel - 1, by omega⟩
    rw [Nat.add_zero] at herr
    simp [get_all_projects_aux, herr, List.range_succ]
  | j + 1, fuel, page, acc => by
    intro hok herr hfuel
    obtain ⟨f, rfl⟩ : ∃ f, fuel = f + 1 := ⟨fuel - 1, by omega⟩
    obtain ⟨h0, h0ne, h0s⟩ := hok 0 (by omega)
    rw [Nat.add_zero] at h0 h0ne h0s
    have hrec := get_all_projects_aux_err backend ps nx j f (page + 1) (acc ++ ps page)
      (fun i hi => by
        have h := hok (i + 1) (by omega)
        have e : page + (i + 1) = page + 1 + i := by omega
        rw [e] at h
        exact h)
      (by
        have e : page + (j + 1) = page + 1 + j := by omega
        rw [e] at herr
        exact herr)
      (by omega)
    simp only [get_all_projects_aux, h0, h0ne, h0s, if_neg, ite_false]
    rw [hrec]
    simp only [Prod.mk.injEq]
    have hshift₁ : (List.range j).map (fun i => ps (page + 1 + i))
        = (List.range j).map fun i => ps (page + (i + 1)) := by
      apply List.map_congr_left
      intro i _
      congr 1
      omega
    have hshift₂ : (List.range (j + 1)).map (fun i => pageRequest (page + 1 + i))
        = (List.range (j + 1)).map fun i => pageRequest (page + (i + 1)) := by
      apply List.map_congr_left
      intro i _
      congr 1
      omega
    refine ⟨?_, ?_⟩
    · rw [hshift₁, List.range_succ_eq_map]
      simp [Function.comp_def, Nat.succ_eq_add_one]
    · rw [hshift₂]
      conv_rhs => rw [List.range_succ_eq_map]
      simp [Function.comp_def, Nat.succ_eq_add_one]

/-- C4: the enumeration never surfaces a transport error.  If the
requests for pages 1..j succeed with non-empty pages and next-page
signals and the request for page 1+j fails, the loop stops at the
failing request and returns exactly the projects accumulated from the
successful pages, having issued j+1 requests. -/
theorem enumeration_error_partial_result (backend : Nat → PageResult)
    (ps : Nat → List Project) (nx : Nat → String) (j fuel : Nat)
    (hok : ∀ i, i < j → backend (1 + i) = .ok (ps (1 + i)) (some (nx (1 + i)))
        ∧ ps (1 + i) ≠ [] ∧ nx (1 + i) ≠ "")
    (herr : backend (1 + j) = .err)
    (hfuel : j + 1 ≤ fuel) :
    (get_all_projects backend fuel).1
      = ((List.range j).map fun i => ps (1 + i)).flatten ∧
    (get_all_projects backend fuel).2
      = (List.range (j + 1)).map fun i => pageRequest (1 + i) := by
  have h := get_all_projects_aux_err backend ps nx j fuel 1 [] hok herr hfuel
  unfold get_all_projects
  rw [h]
  simp

/-- Witness for C4: page 1 succeeds with two projects and a next-page
signal, the request for page 2 fails; the two projects are returned
after two requests. -/
theorem enumeration_error_partial_result_witness :
    (get_all_projects
        (fun p => if p = 1 then
          .ok [⟨1, "a", "g/a", "u1"⟩, ⟨2, "b", "g/b", "u2"⟩] (some "2") else .err) 10).1
      = ((List.range 1).map fun _ =>
          [(⟨1, "a", "g/a", "u1"⟩ : Project), ⟨2, "b", "g/b", "u2"⟩]).flatten ∧
    (get_all_projects
        (fun p => if p = 1 then
          .ok [⟨1, "a", "g/a", "u1"⟩, ⟨2, "b", "g/b", "u2"⟩] (some "2") else .err) 10).2
      = (List.range 2).map fun i => pageRequest (1 + i) :=
  enumeration_error_partial_result _
    (fun _ => [⟨1, "a", "g/a", "u1"⟩, ⟨2, "b", "g/b", "u2"⟩]) (fun _ => "2") 1 10
    (fun i hi => by
      have : i = 0 := by omega
      subst this
      exact ⟨rfl, by decide, by decide⟩)
    rfl (by omega)

/-- C8: lines 110-116 store, for each API variable, exactly the five
fields `key`, `protected`, `masked`, `environment_scope`,
`variable_type` (the whole of `StoredVariable`), with the documented
defaults `false`, `false`, `"*"`, `"env_var"` substituted for missing
optional fields — and the stored record is independent of every other
field of the API object, the secret `value` and any extra fields in
particular. -/
theorem stored_variable_projection :
    (∀ v : ApiVariable, projectVariable v
      = { key := v.key
          «protected» := v.«protected».getD false
          masked := v.masked.getD false
          environment_scope := v.environment_scope.getD "*"
          variable_type := v.variable_type.getD "env_var" }) ∧
    (∀ v w : ApiVariable, v.key = w.key → v.«protected» = w.«protected» →
      v.masked = w.masked → v.environment_scope = w.environment_scope →
      v.variable_type = w.variable_type → projectVariable v = projectVariable w) := by
  constructor
  · intro v; rfl
  · intro v w h1 h2 h3 h4 h5
    simp [projectVariable, h1, h2, h3, h4, h5]

/-- Witness for C8: two API objects agreeing on the five projected
fields but differing in the secret `value` and extra fields project to
the same stored record. -/
theorem stored_variable_projection_witness :
    projectVariable
        ⟨some "K", some true, none, none, none, some "SECRET", [("hidden", "1")]⟩
      = projectVariable ⟨some "K", some true, none, none, none, none, []⟩ :=
  stored_variable_projection.2 _ _ rfl rfl rfl rfl rfl

theorem readStoredVariable_json (v : StoredVariable) :
    readStoredVariable (storedVariableJson v) = some v := by
  rcases v with ⟨k, p, m, es, vt⟩
  rcases k with - | s <;> rfl

theorem readStoredVariableList_json (l : List StoredVariable) :
    readStoredVariableList (l.map storedVariableJson) = some l := by
  induction l with
  | nil => rfl
  | cons v l ih =>
    simp [readStoredVariableList, readStoredVariable_json, ih]

theorem readProjectData_json (p : ProjectData) :
    readProjectData (projectDataJson p) = some p := by
  rcases p with ⟨i, n, pa, w, vs⟩
  simp [projectDataJson, readProjectData, readStoredVariableList_json]

theorem readProjectDataList_json (l : List ProjectData) :
    readProjectDataList (l.map projectDataJson) = some l := by
  induction l with
  | nil => rfl
  | cons p l ih =>
    simp [readProjectDataList, readProjectData_json, ih]

/-- C9: serializing an `AuditReport` as `save_results` does (the JSON
value handed to `json.dump`; the indent-2 text layer is the standard
library's and round-trips JSON values exactly) and interpreting the
value read back yields the original report, every field equal, the
order of `projects` and of each entry's `variables` included. -/
theorem save_load_round_trip (r : AuditReport) :
    load_results (save_results r) = some r := by
  rcases r with ⟨d, tp, pws, ts, ps⟩
  simp [save_results, load_results, readProjectDataList_json]

theorem projCountGe_trans (a b c : ProjectData) :
    projCountGe a b → projCountGe b c → projCountGe a c := by
  simp only [projCountGe, decide_eq_true_eq]
  omega

theorem projCountGe_total (a b : ProjectData) :
    projCountGe a b || projCountGe b a := by
  simp only [projCountGe]
  rcases Nat.le_total b.«variables».length a.«variables».length with h | h <;> simp [h]

/-- C6: the console summary renders project entries in descending order
of variable count, with equal counts kept in their aggregation order
(the sort is stable); on the scenario report — A with three variables,
B with one — A is rendered before B. -/
theorem summary_project_order :
    (∀ r : AuditReport, r.projects ≠ [] →
      (sorted_projects r).Pairwise
        (fun a b => b.«variables».length ≤ a.«variables».length) ∧
      (∀ a b : ProjectData, a.«variables».length = b.«variables».length →
        List.Sublist [a, b] r.projects → List.Sublist [a, b] (sorted_projects r)) ∧
      (sorted_projects r).Perm r.projects) ∧
    sorted_projects
      { audit_date := "t", total_projects := 2, projects_with_secrets := 2,
        total_secrets := 4,
        projects := [⟨1, "A", "g/A", "uA",
                       [⟨some "K1", false, false, "*", "env_var"⟩,
                        ⟨some "K2", false, false, "*", "env_var"⟩,
                        ⟨some "K3", false, false, "*", "env_var"⟩]⟩,
                     ⟨2, "B", "g/B", "uB",
                       [⟨some "K4", false, false, "*", "env_var"⟩]⟩] }
      = [⟨1, "A", "g/A", "uA",
           [⟨some "K1", false, false, "*", "env_var"⟩,
            ⟨some "K2", false, false, "*", "env_var"⟩,
            ⟨some "K3", false, false, "*", "env_var"⟩]⟩,
         ⟨2, "B", "g/B", "uB",
           [⟨some "K4", false, false, "*", "env_var"⟩]⟩] := by
  constructor
  · intro r _
    refine ⟨?_, ?_, ?_⟩
    · have h := List.sorted_mergeSort projCountGe_trans projCountGe_total r.projects
      exact h.imp fun hab => by
        simpa [projCountGe, decide_eq_true_eq] using hab
    · intro a b hlen hsub
      exact List.pair_sublist_mergeSort projCountGe_trans projCountGe_total
        (by simp [projCountGe, hlen]) hsub
    · exact List.mergeSort_perm r.projects projCountGe
  · have h : projCountGe
        ⟨1, "A", "g/A", "uA",
          [⟨some "K1", false, false, "*", "env_var"⟩,
           ⟨some "K2", false, false, "*", "env_var"⟩,
           ⟨some "K3", false, false, "*", "env_var"⟩]⟩
        ⟨2, "B", "g/B", "uB", [⟨some "K4", false, false, "*", "env_var"⟩]⟩
        = true := by
      simp [projCountGe]
    unfold sorted_projects
    rw [List.mergeSort]
    simp [List.splitInTwo, List.merge, h]

/-- Witness for C6: the general part of the theorem, applied to the
scenario report (non-empty projects list discharged concretely), keeps
the rendered list a permutation of the aggregated one. -/
theorem summary_project_order_witness :
    (sorted_projects
      { audit_date := "t", total_projects := 2, projects_with_secrets := 2,
        total_secrets := 4,
        projects := [⟨1, "A", "g/A", "uA",
                       [⟨some "K1", false, false, "*", "env_var"⟩,
                        ⟨some "K2", false, false, "*", "env_var"⟩,
                        ⟨some "K3", false, false, "*", "env_var"⟩]⟩,
                     ⟨2, "B", "g/B", "uB",
                       [⟨some "K4", false, false, "*", "env_var"⟩]⟩] }).Perm
      [⟨1, "A", "g/A", "uA",
         [⟨some "K1", false, false, "*", "env_var"⟩,
          ⟨some "K2", false, false, "*", "env_var"⟩,
          ⟨some "K3", false, false, "*", "env_var"⟩]⟩,
       ⟨2, "B", "g/B", "uB", [⟨some "K4", false, false, "*", "env_var"⟩]⟩] :=
  (summary_project_order.1 _ (by decide)).2.2

theorem varKeyLe_trans (a b c : StoredVariable) :
    varKeyLe a b → varKeyLe b c → varKeyLe a c := by
  simp only [varKeyLe, decide_eq_true_eq]
  exact le_trans

theorem varKeyLe_total (a b : StoredVariable) :
    varKeyLe a b || varKeyLe b a := by
  simp only [varKeyLe]
  rcases le_total (keyStr a) (keyStr b) with h | h <;> simp [h]

/-- C7 (amended): for every variable list whose stored records all
carry string keys, the rendering's variable sort succeeds and orders
them ascending lexicographically (case-sensitive) by key — non-strict:
variables with equal keys may be adjacent and keep their original
order — as a function of the list alone; the scenario keys `B_KEY`,
`A_KEY` render as `A_KEY` then `B_KEY`. -/
theorem summary_variable_order_amended :
    (∀ l : List StoredVariable, (∀ v ∈ l, v.key.isSome) →
      ∃ out, sortedByKey l = .ok out ∧
        out.Pairwise (fun a b => keyStr a ≤ keyStr b) ∧
        (∀ a b : StoredVariable, keyStr a = keyStr b →
          List.Sublist [a, b] l → List.Sublist [a, b] out) ∧
        out.Perm l) ∧
    sortedByKey [⟨some "B_KEY", true, false, "*", "env_var"⟩,
                 ⟨some "A_KEY", false, false, "*", "env_var"⟩]
      = .ok [⟨some "A_KEY", false, false, "*", "env_var"⟩,
             ⟨some "B_KEY", true, false, "*", "env_var"⟩] := by
  constructor
  · intro l hsome
    by_cases hlen : l.length ≤ 1
    · refine ⟨l, by simp [sortedByKey, hlen], ?_, ?_, List.Perm.refl l⟩
      · match l, hlen with
        | [], _ => exact List.Pairwise.nil
        | [v], _ => simp
      · intro a b _ hsub
        have := hsub.length_le
        simp at this
        omega
    · have hsome' : ∀ v ∈ l, ¬ v.key = none := fun v hv =>
        Option.isSome_iff_ne_none.mp (hsome v hv)
      refine ⟨l.mergeSort varKeyLe, by simp [sortedByKey, hlen]; exact hsome', ?_, ?_, ?_⟩
      · have h := List.sorted_mergeSort varKeyLe_trans varKeyLe_total l
        exact h.imp fun hab => by
          simpa [varKeyLe, decide_eq_true_eq] using hab
      · intro a b heq hsub
        exact List.pair_sublist_mergeSort varKeyLe_trans varKeyLe_total
          (by simp [varKeyLe, heq]) hsub
      · exact List.mergeSort_perm l varKeyLe
  · have h : varKeyLe ⟨some "A_KEY", false, false, "*", "env_var"⟩
        ⟨some "B_KEY", true, false, "*", "env_var"⟩ = true := by
      simp only [varKeyLe, keyStr, Option.getD_some, decide_eq_true_eq]
      exact String.le_iff_toList_le.mpr (by decide)
    have h' : varKeyLe ⟨some "B_KEY", true, false, "*", "env_var"⟩
        ⟨some "A_KEY", false, false, "*", "env_var"⟩ = false := by
      simp only [varKeyLe, keyStr, Option.getD_some, decide_eq_false_iff_not]
      rw [String.le_iff_toList_le]
      decide
    have hok : sortedByKey [⟨some "B_KEY", true, false, "*", "env_var"⟩,
        ⟨some "A_KEY", false, false, "*", "env_var"⟩]
        = .ok (List.mergeSort [⟨some "B_KEY", true, false, "*", "env_var"⟩,
            ⟨some "A_KEY", false, false, "*", "env_var"⟩] varKeyLe) := by
      simp [sortedByKey]
    rw [hok, List.mergeSort]
    simp [List.splitInTwo, List.merge, h, h']

/-- Witness for C7 at a concrete all-string-keys list, with the
hypothesis discharged by evaluation. -/
theorem summary_variable_order_amended_witness :
    ∃ out, sortedByKey [⟨some "B_KEY", true, false, "*", "env_var"⟩,
        ⟨some "A_KEY", false, false, "*", "env_var"⟩] = .ok out ∧
      out.Pairwise (fun a b => keyStr a ≤ keyStr b) ∧
      (∀ a b : StoredVariable, keyStr a = keyStr b →
        List.Sublist [a, b] [⟨some "B_KEY", true, false, "*", "env_var"⟩,
          (⟨some "A_KEY", false, false, "*", "env_var"⟩ : StoredVariable)] →
        List.Sublist [a, b] out) ∧
      out.Perm [⟨some "B_KEY", true, false, "*", "env_var"⟩,
        ⟨some "A_KEY", false, false, "*", "env_var"⟩] :=
  summary_variable_order_amended.1
    [⟨some "B_KEY", true, false, "*", "env_var"⟩,
     ⟨some "A_KEY", false, false, "*", "env_var"⟩] (by decide)

/-- Counterexample to C7 as stated: two variables sharing the key `"K"`
(legal — the platform allows one key under several environment scopes)
render adjacently with equal keys, so the rendered key sequence is not
strictly ascending. -/
theorem summary_variable_order_counterexample :
    sortedByKey [⟨some "K", false, false, "production", "env_var"⟩,
                 ⟨some "K", false, false, "staging", "env_var"⟩]
      = .ok [⟨some "K", false, false, "production", "env_var"⟩,
             ⟨some "K", false, false, "staging", "env_var"⟩] ∧
    keyStr ⟨some "K", false, false, "production", "env_var"⟩
      = keyStr ⟨some "K", false, false, "staging", "env_var"⟩ ∧
    ¬ keyStr ⟨some "K", false, false, "production", "env_var"⟩
      < keyStr ⟨some "K", false, false, "staging", "env_var"⟩ := by
  refine ⟨?_, rfl, by simp [keyStr]⟩
  have h : varKeyLe ⟨some "K", false, false, "production", "env_var"⟩
      ⟨some "K", false, false, "staging", "env_var"⟩ = true := by
    simp [varKeyLe, keyStr]
  have hok : sortedByKey [⟨some "K", false, false, "production", "env_var"⟩,
      ⟨some "K", false, false, "staging", "env_var"⟩]
      = .ok (List.mergeSort [⟨some "K", false, false, "production", "env_var"⟩,
          ⟨some "K", false, false, "staging", "env_var"⟩] varKeyLe) := by
    simp [sortedByKey]
  rw [hok, List.mergeSort]
  simp [List.splitInTwo, List.merge, h]

/-- C10 (amended): if the API returns, for some enumerated project, a
variable list with at least two entries one of which lacks a `key`
field, then the aggregated report holds an entry for that project whose
stored record has `key = none`, and the per-project variable sort of
`display_summary` raises on that entry (a comparison against `None` is
unavoidable), so the renderer is not total over the reports the
aggregator can produce. -/
theorem keyless_variable_renderer_failure (env : Env) (l : List Project)
    (p : Project) (vs : List ApiVariable) (v : ApiVariable)
    (hp : p ∈ l) (hvs : env.vars p.id = .ok vs) (hv : v ∈ vs)
    (hkey : v.key = none) (hlen : 2 ≤ vs.length) :
    ∃ e ∈ (audit_core env l).projects, e.id = p.id ∧
      (∃ w ∈ e.«variables», w.key = none) ∧
      sortedByKey e.«variables» = .error () := by
  have hget : get_project_variables env p.id = vs := by
    simp [get_project_variables, hvs]
  have hmem : p ∈ withSecrets env l := by
    simp only [withSecrets, List.mem_filter]
    refine ⟨hp, ?_⟩
    rcases vs with - | ⟨x, xs⟩
    · simp at hv
    · simp [hget]
  obtain ⟨-, -, -, -, h5⟩ := audit_core_spec env l
  refine ⟨projectEntry p vs, ?_, by simp [projectEntry], ?_, ?_⟩
  · rw [h5]
    have := List.mem_map_of_mem
      (fun q => projectEntry q (get_project_variables env q.id)) hmem
    simpa [hget] using this
  · exact ⟨projectVariable v, by
      simp only [projectEntry]
      exact List.mem_map_of_mem projectVariable hv,
      by simp [projectVariable, hkey]⟩
  · have h1 : ¬ (projectEntry p vs).«variables».length ≤ 1 := by
      simp [projectEntry]
      omega
    have h2 : ¬ ∀ w ∈ (projectEntry p vs).«variables», w.key.isSome := by
      intro hall
      have := hall (projectVariable v) (by
        simp only [projectEntry]
        exact List.mem_map_of_mem projectVariable hv)
      simp [projectVariable, hkey] at this
    simp [sortedByKey, h1, h2]

/-- Witness for C10 (amended) at a concrete world: project 1's fetch
returns two variables, the first keyless. -/
theorem keyless_variable_renderer_failure_witness :
    ∃ e ∈ (audit_core
        { pages := fun _ => .err, fuel := 0,
          vars := fun i => if i = 1 then
            .ok [⟨none, none, none, none, none, some "S", []⟩,
                 ⟨some "K", none, none, none, none, none, []⟩] else .err,
          now := "t" }
        [⟨1, "a", "g/a", "u"⟩]).projects,
      e.id = (⟨1, "a", "g/a", "u"⟩ : Project).id ∧
      (∃ w ∈ e.«variables», w.key = none) ∧
      sortedByKey e.«variables» = .error () :=
  keyless_variable_renderer_failure _ _ ⟨1, "a", "g/a", "u"⟩
    [⟨none, none, none, none, none, some "S", []⟩,
     ⟨some "K", none, none, none, none, none, []⟩]
    ⟨none, none, none, none, none, some "S", []⟩
    (by simp) rfl (by simp) rfl (by simp)

/-- Counterexample to C10 as stated: an audit in which one project's
non-empty variable list is a single keyless object stores `key = none`,
yet the renderer's variable sort succeeds — a one-element sort performs
no comparison — so "the per-project variable sort is then undefined"
fails for this input. -/
theorem keyless_singleton_sort_defined :
    (audit_secrets
        { pages := fun p => if p = 1 then .ok [⟨1, "a", "g/a", "u"⟩] none else .err,
          fuel := 5,
          vars := fun i => if i = 1 then
            .ok [⟨none, none, none, none, none, some "S", []⟩] else .err,
          now := "t" }).projects
      = [⟨1, "a", "g/a", "u", [⟨none, false, false, "*", "env_var"⟩]⟩] ∧
    (⟨none, false, false, "*", "env_var"⟩ : StoredVariable).key = none ∧
    sortedByKey [⟨none, false, false, "*", "env_var"⟩]
      = .ok [⟨none, false, false, "*", "env_var"⟩] :=
  ⟨rfl, rfl, rfl⟩

end GitLabAudit
